import Mathlib

/-!
Verification of the halfs-app ingestion and bulk-correction front end.

The development shallowly embeds the row-import pipeline of the CyberLive
pages (`parseLines`, `importRows`, `archiveRow`, the TSV import loop) and the
request-level gates of the Cybers base page (`runReplace`,
`runMergeTournaments`, `handleImport`).  JavaScript strings are modelled as
`String` / `List Char` with hand-rolled structural versions of the string
primitives the source uses (`split`, `trim`, `replace`), so that every
definition evaluates inside the kernel.  JavaScript numbers are modelled as
rationals (`ℚ`); `NaN` is modelled by `Option.none` at the points where the
source checks `isNaN`.  `Number(...)` and `parseFloat(...)` are modelled on
decimal literals (optional sign, digits, one point, optional exponent);
exotic inputs (hex literals, `Infinity`) are outside the model and are
treated as `NaN`, which no theorem below exercises.
-/

/-- Structural model of JavaScript `s.split(sep)` for a one-character
separator, on the character list of the string.  Mirrors JS semantics:
`"".split(c) = [""]`, separators at the ends produce empty fields. -/
def splitOnChar (sep : Char) : List Char → List (List Char)
  | [] => [[]]
  | c :: r =>
    match splitOnChar sep r with
    | [] => if c = sep then [[], []] else [[c]]
    | h :: t => if c = sep then [] :: h :: t else (c :: h) :: t

/-- Whitespace test used by the `trim` model. -/
def isWS (c : Char) : Bool := c.isWhitespace

/-- Structural model of JavaScript `s.trim()` on a character list: drop
whitespace from both ends. -/
def jsTrim (l : List Char) : List Char :=
  ((l.dropWhile isWS).reverse.dropWhile isWS).reverse

/-- Model of JavaScript `s.replace(',', '.')`: only the FIRST comma is
replaced (JS `String.prototype.replace` with a string pattern). -/
def replaceCommaOnceList : List Char → List Char
  | [] => []
  | c :: r => if c = ',' then '.' :: r else c :: replaceCommaOnceList r

/-- String wrapper for `replaceCommaOnceList`. -/
def replaceCommaOnce (s : String) : String :=
  String.mk (replaceCommaOnceList s.toList)

/-- Numeric value of a digit run (most significant first). -/
def digitsToNat (l : List Char) : ℕ :=
  l.foldl (fun a c => 10 * a + (c.toNat - '0'.toNat)) 0

/-- Optional leading sign of a JS numeric literal; returns
(isNegative, rest). -/
def parseSign (l : List Char) : Bool × List Char :=
  match l with
  | c :: r => if c = '-' then (true, r) else if c = '+' then (false, r) else (false, l)
  | [] => (false, [])

/-- Mantissa of a JS decimal literal: `digits [. digits]` or `. digits`.
Returns ((value-digits as a natural, number of fractional digits), rest),
or `none` when no digit is present. -/
def parseMantissa (l : List Char) : Option ((ℕ × ℕ) × List Char) :=
  let ds := l.takeWhile Char.isDigit
  let r1 := l.dropWhile Char.isDigit
  match r1 with
  | '.' :: r2 =>
    let fs := r2.takeWhile Char.isDigit
    let r3 := r2.dropWhile Char.isDigit
    if ds = [] ∧ fs = [] then none
    else some ((digitsToNat (ds ++ fs), fs.length), r3)
  | _ => if ds = [] then none else some ((digitsToNat ds, 0), r1)

/-- Optional exponent part `e|E [sign] digits`.  `none` means a malformed
exponent (an `e` not followed by digits); when no exponent marker is present
the exponent is `0`. -/
def parseExponent (l : List Char) : Option (ℤ × List Char) :=
  match l with
  | c :: r =>
    if c = 'e' ∨ c = 'E' then
      let sr := parseSign r
      let es := sr.2.takeWhile Char.isDigit
      let r3 := sr.2.dropWhile Char.isDigit
      if es = [] then none
      else some ((if sr.1 then -(digitsToNat es : ℤ) else (digitsToNat es : ℤ)), r3)
    else some (0, l)
  | [] => some (0, [])

/-- The rational denoted by sign, mantissa digits `m`, fractional length `f`
and decimal exponent `e`: `±m / 10^f · 10^e`, assembled with a single
`mkRat` so the value evaluates in the kernel. -/
def ratOfParts (neg : Bool) (m f : ℕ) (e : ℤ) : ℚ :=
  mkRat ((if neg then -(m : ℤ) else (m : ℤ)) * 10 ^ e.toNat) (10 ^ (f + (-e).toNat))

/-- Model of JavaScript `Number(s)` followed by the source's `isNaN` check:
`none` is `NaN`.  Whitespace is trimmed, the empty string converts to `0`,
and the whole remaining string must be a decimal literal. -/
def jsNumber (s : String) : Option ℚ :=
  let l := jsTrim s.toList
  if l = [] then some 0
  else
    let s0 := parseSign l
    match parseMantissa s0.2 with
    | none => none
    | some ((m, f), r1) =>
      match parseExponent r1 with
      | none => none
      | some (e, r2) => if r2 = [] then some (ratOfParts s0.1 m f e) else none

/-- Model of JavaScript `parseFloat(s)` followed by the source's `isNaN`
check: `none` is `NaN`.  Unlike `Number`, the longest numeric prefix is
taken and trailing garbage (including a malformed exponent) is ignored. -/
def jsParseFloat (s : String) : Option ℚ :=
  let l := jsTrim s.toList
  let s0 := parseSign l
  match parseMantissa s0.2 with
  | none => none
  | some ((m, f), r1) =>
    match parseExponent r1 with
    | none => some (ratOfParts s0.1 m f 0)
    | some (e, _) => some (ratOfParts s0.1 m f e)

/-- `Math.abs` on the rational model. -/
def ratAbs (q : ℚ) : ℚ := if q < 0 then -q else q

/-- A JavaScript value as it can reach `calc_temp`: a number, `null`, or
`NaN`. -/
inductive JsVal where
  | num (q : ℚ)
  | null
  | nan
  deriving DecidableEq, Repr

/-- JavaScript `Number(v)` coercion on a `JsVal` (`Number(null) = 0`);
`none` is `NaN`. -/
def jsValToNumber : JsVal → Option ℚ
  | JsVal.num q => some q
  | JsVal.null => some 0
  | JsVal.nan => none

/-- `v ?? 0`-style defaulting used when the archive payload is built:
`null` becomes `0`, numbers and `NaN` pass through. -/
def jsNullToZero : JsVal → JsVal
  | JsVal.null => JsVal.num 0
  | v => v

/-- CyberLivePage `hasCalcTemp` (source part_001 lines 20-23): the parsed
value must be a finite number of magnitude above `0.000001` (modelled as
`1/1000000`). -/
def hasCalcTemp (v : JsVal) : Bool :=
  match jsValToNumber v with
  | some q => decide (mkRat 1 1000000 < ratAbs q)
  | none => false

/-- One in-memory row of the CyberLive Lines table (the shape produced by
`parseLines` and `loadSaved`; freshly parsed rows carry no `key` and no
`id`, modelled as `""` and `none`). -/
structure CyberRow where
  key : String
  id : Option ℤ
  tournament : String
  team1 : String
  team2 : String
  total : Option ℚ
  calc_temp : JsVal
  deriving DecidableEq, Repr

/-- The cell tokenization both CyberLive import loops share (part_001
line 29 and part_000 line 79): split the line on tabs, trim each cell,
drop empty cells. -/
def cellsOfLine (l : List Char) : List String :=
  ((splitOnChar '\t' l).map (fun c => String.mk (jsTrim c))).filter (fun c => c ≠ "")

/-- The `decimal` coercion of the CyberLive parse (part_001 line 37):
`Number(String(cell).replace(',', '.'))`, with `NaN` mapped to `null`. -/
def coerceTotal (c : String) : Option ℚ := jsNumber (replaceCommaOnce c)

/-- The row constructed by `parseLines` from the cell list of one accepted
line (part_001 lines 31-40): positions 0-2 are tournament and teams, the
total candidate is cell 4 when at least 5 cells are present, else cell 3
(absent when only 3 cells are present, leaving the total `null`). -/
def mkParsedRow (cells : List String) : CyberRow :=
  { key := "", id := none,
    tournament := cells.getD 0 "",
    team1 := cells.getD 1 "",
    team2 := cells.getD 2 "",
    total :=
      match (if 5 ≤ cells.length then cells.get? 4 else cells.get? 3) with
      | some c => coerceTotal c
      | none => none,
    calc_temp := JsVal.num 0 }

/-- The body of the `parseLines` loop (part_001 lines 26-42) over the list
of lines: blank lines (`!line.trim()`) are skipped, lines with fewer than
3 cells are skipped, every other line pushes one row. -/
def parseLinesAux : List (List Char) → List CyberRow
  | [] => []
  | l :: ls =>
    if jsTrim l = [] then parseLinesAux ls
    else
      if (cellsOfLine l).length < 3 then parseLinesAux ls
      else mkParsedRow (cellsOfLine l) :: parseLinesAux ls

/-- CyberLivePage `parseLines` (part_001 lines 25-43). -/
def parseLines (rawText : String) : List CyberRow :=
  parseLinesAux (splitOnChar '\n' rawText.toList)

/-- The dry-run report of the CyberLive parse.  The source surfaces no
per-line diagnostics at all: rejected lines are dropped by `continue`
(part_001 lines 28-30) and `importRows` shows only the accepted-row count,
so the error list of the report is constantly empty. -/
structure PreviewReport where
  parsed_rows : List CyberRow
  errors : List String
  deriving DecidableEq, Repr

/-- The preview the CyberLive page can offer for a pasted text: the parsed
rows of `parseLines`, plus the (empty) list of reported row errors. -/
def cyberPreview (rawText : String) : PreviewReport :=
  { parsed_rows := parseLines rawText, errors := [] }

/-- Spec-side metric (from the claim, not from the source): the number of
non-blank lines of the input text. -/
def specNonBlankLineCount (rawText : String) : ℕ :=
  ((splitOnChar '\n' rawText.toList).filter (fun l => decide (jsTrim l ≠ []))).length

/-- The lines the CyberLive parse actually keeps: non-blank with at least
3 non-empty trimmed cells. -/
def keptLine (l : List Char) : Bool :=
  decide (jsTrim l ≠ []) && decide (3 ≤ (cellsOfLine l).length)

/-- Number of kept lines of the input text. -/
def keptLineCount (rawText : String) : ℕ :=
  ((splitOnChar '\n' rawText.toList).filter keptLine).length

/-- `parseLines` paired with an explicit persisted store, to state purity:
the parse reads no store and issues no persistence call (part_001 lines
25-43 contain no API access), so the store passes through unchanged. -/
def cyberPreviewRun (rawText : String) (store : List CyberRow) :
    List CyberRow × List CyberRow :=
  (parseLines rawText, store)

/-- The key rewrite of `importRows` (part_001 line 153):
`idx + "-" + tournament + "-" + team1 + "-" + team2`. -/
def setRowKey (i : ℕ) (r : CyberRow) : CyberRow :=
  { r with key := Nat.repr i ++ "-" ++ r.tournament ++ "-" ++ r.team1 ++ "-" ++ r.team2 }

/-- `[...rows, ...parsed].map((r, idx) => ({...r, key: ...}))` as a
structural recursion carrying the running index. -/
def withKeys : ℕ → List CyberRow → List CyberRow
  | _, [] => []
  | i, r :: rs => setRowKey i r :: withKeys (i + 1) rs

/-- Result of `importRows`: the new Lines rows, whether the
no-valid-rows warning was shown, and the remaining import text field. -/
structure ImportRowsOutcome where
  rows : List CyberRow
  warning : Bool
  inputText : String
  deriving DecidableEq, Repr

/-- CyberLivePage `importRows` (part_001 lines 147-158).  `le a b` models
`a.localeCompare(b) <= 0`; the in-place `Array.prototype.sort` is modelled
by `List.insertionSort`, which returns an ordered permutation as any
consistent JS sort does.  With no parsed row, a warning is shown and the
state is untouched; otherwise the parsed rows are appended, keys are
regenerated positionally, the merged list is sorted by tournament, and the
input text is cleared. -/
def importRows (le : String → String → Bool) (inputText : String)
    (rows : List CyberRow) : ImportRowsOutcome :=
  let parsed := parseLines inputText
  if parsed.length = 0 then
    { rows := rows, warning := true, inputText := inputText }
  else
    { rows := List.insertionSort
        (fun a b => le a.tournament b.tournament = true) (withKeys 0 (rows ++ parsed)),
      warning := false,
      inputText := "" }

/-- The locale-independent data of a row (everything except the synthetic
`key`, which `importRows` regenerates positionally on every import). -/
def rowData (r : CyberRow) : Option ℤ × String × String × String × Option ℚ × JsVal :=
  (r.id, r.tournament, r.team1, r.team2, r.total, r.calc_temp)

/-- Prediction data attached to a Lines row by the predict effect. -/
structure PredData where
  predict : ℚ
  temp : ℚ
  it1 : ℚ
  it2 : ℚ
  deriving DecidableEq, Repr

/-- A row of the rendered Lines table (`linesData`, part_001 lines 236-249):
the state row enriched with prediction and derived columns.  `under`,
`over` and `t2hPredict` are number-or-empty-string unions, modelled as
`Option ℚ` with `none` for the empty string. -/
structure ViewRow where
  key : String
  id : Option ℤ
  tournament : String
  team1 : String
  team2 : String
  total : Option ℚ
  calc_temp : JsVal
  pred : Option PredData
  totalComputed : Option ℚ
  under : Option ℚ
  over : Option ℚ
  t2h : ℚ
  t2hPredict : Option ℚ
  deriving DecidableEq, Repr

/-- The payload `archiveRow` sends to `cyber.archiveLive` (part_001 lines
177-190). -/
structure ArchivePayload where
  live_row_id : Option ℤ
  tournament : String
  team1 : String
  team2 : String
  total : Option ℚ
  calc_temp : JsVal
  temp : ℚ
  predict : ℚ
  under_value : Option ℚ
  over_value : Option ℚ
  t2h : ℚ
  t2h_predict : Option ℚ
  deriving DecidableEq, Repr

/-- Payload construction of `archiveRow` (part_001 lines 177-190):
nullish-coalescing defaults field by field. -/
def mkArchivePayload (row : ViewRow) : ArchivePayload :=
  { live_row_id := row.id,
    tournament := row.tournament,
    team1 := row.team1,
    team2 := row.team2,
    total := match row.totalComputed with | some q => some q | none => row.total,
    calc_temp := jsNullToZero row.calc_temp,
    temp := match row.pred with | some p => p.temp | none => 0,
    predict := match row.pred with | some p => p.predict | none => 0,
    under_value := row.under,
    over_value := row.over,
    t2h := row.t2h,
    t2h_predict := row.t2hPredict }

/-- Response of the archive service call. -/
structure ArchiveResult where
  deleted_from_live : ℤ
  archived : Bool
  updated_existing : Bool
  deriving DecidableEq, Repr

/-- Observable outcome of one `archiveRow` invocation: the request issued
(if any), the new Lines rows, whether the archive list was reloaded from
the service, and whether the missing-CalcTEMP warning was shown. -/
structure ArchiveOutcome where
  request : Option ArchivePayload
  rows : List CyberRow
  archiveReloaded : Bool
  guardWarning : Bool
  deriving DecidableEq, Repr

/-- CyberLivePage `archiveRow` (part_001 lines 171-205).  `svc` models the
`cyber.archiveLive` call; `svc p = none` models a thrown request error
(caught, state untouched).  Without a usable CalcTEMP the function warns
and returns before building or sending any payload. -/
def archiveRow (svc : ArchivePayload → Option ArchiveResult) (row : ViewRow)
    (rows : List CyberRow) : ArchiveOutcome :=
  if hasCalcTemp row.calc_temp = false then
    { request := none, rows := rows, archiveReloaded := false, guardWarning := true }
  else
    let payload := mkArchivePayload row
    match svc payload with
    | none => { request := some payload, rows := rows, archiveReloaded := false,
                guardWarning := false }
    | some res =>
      { request := some payload,
        rows := if 0 < res.deleted_from_live
                then rows.filter (fun r => r.key ≠ row.key) else rows,
        archiveReloaded := res.archived || res.updated_existing,
        guardWarning := false }

/-- The `В архив` button's disabled condition (part_001 line 330):
`disabled={!hasCalcTemp(row.calc_temp)}`. -/
def archiveDisabled (row : ViewRow) : Bool := !hasCalcTemp row.calc_temp

/-- A persisted CyberLive match of the older page variant (part_000). -/
structure LiveMatch where
  tournament : String
  team1 : String
  team2 : String
  total : Option ℚ
  calc_temp : ℚ
  deriving DecidableEq, Repr

/-- The record built by the part_000 `handleImport` loop body (lines
79-90): fewer than 3 cells rejects the line, the total comes from cell 3
via `parseFloat` with comma tolerance and stays `null` when absent or
`NaN`. -/
def rowOfCellsLive (cells : List String) : Option LiveMatch :=
  if cells.length < 3 then none
  else some
    { tournament := cells.getD 0 "",
      team1 := cells.getD 1 "",
      team2 := cells.getD 2 "",
      total :=
        match cells.get? 3 with
        | some c => jsParseFloat (replaceCommaOnce c)
        | none => none,
      calc_temp := 0 }

/-- The per-line loop of part_000 `handleImport` (lines 78-95): each
accepted record is appended to the store by `addLive`; rejected lines are
skipped by `continue` and persistence errors by an empty `catch`, so the
loop always runs to the end of the input. -/
def importLoopLive : List (List Char) → List LiveMatch → List LiveMatch
  | [], store => store
  | l :: ls, store =>
    match rowOfCellsLive (cellsOfLine l) with
    | none => importLoopLive ls store
    | some r => importLoopLive ls (store ++ [r])

/-- Observable outcome of part_000 `handleImport`: the persisted rows, the
failure reasons returned to the user, and whether the unconditional
success message was shown.  The source returns NO failure reasons: the
`catch` is empty (`// skip errors`, line 93) and rejected lines leave no
trace, so `errors` is constantly empty. -/
structure LiveImportOutcome where
  store : List LiveMatch
  errors : List String
  successShown : Bool
  deriving DecidableEq, Repr

/-- Part_000 `handleImport` (lines 74-99): blank text returns silently;
otherwise the trimmed text is split on newlines and fed to the loop, and
`Импорт завершён` is shown unconditionally. -/
def cybersLiveImport (importText : String) (store : List LiveMatch) :
    LiveImportOutcome :=
  if jsTrim importText.toList = [] then
    { store := store, errors := [], successShown := false }
  else
    { store := importLoopLive (splitOnChar '\n' (jsTrim importText.toList)) store,
      errors := [],
      successShown := true }

/-- The rows part_000 `handleImport` accepts from a text, in order. -/
def acceptedRowsLive (importText : String) : List LiveMatch :=
  if jsTrim importText.toList = [] then []
  else (splitOnChar '\n' (jsTrim importText.toList)).filterMap
    (fun l => rowOfCellsLive (cellsOfLine l))

/-- Outcome of a request-level gate on the Cybers base page: the
user-facing validation message shown (if any) and the persistence-layer
call issued (if any). -/
structure GateOutcome (α : Type) where
  warning : Option String
  call : Option α
  deriving DecidableEq, Repr

/-- The request `runReplace` sends to `cyber.replaceValues`. -/
structure ReplaceCall where
  find : String
  repl : String
  scope : String
  tournament : Option String
  deriving DecidableEq, Repr

/-- The request `runMergeTournaments` sends to `cyber.mergeTournaments`. -/
structure MergeCall where
  sources : List String
  target : String
  deriving DecidableEq, Repr

/-- JavaScript falsiness of the optional tournament Select value
(`!replaceTournament`): `null` or the empty string. -/
def jsFalsyOptStr : Option String → Bool
  | none => true
  | some s => decide (s = "")

/-- CybersBasePage `runReplace` (lines 196-220): an empty (or
whitespace-only) find string, or tournament scope without a tournament,
is rejected with a warning before any call; otherwise `replaceValues` is
called with the tournament only in tournament scope. -/
def runReplace (replaceOld replaceNew replaceScope : String)
    (replaceTournament : Option String) : GateOutcome ReplaceCall :=
  if jsTrim replaceOld.toList = [] then
    { warning := some "Введите, что заменить", call := none }
  else if replaceScope = "tournament" ∧ jsFalsyOptStr replaceTournament then
    { warning := some "Выберите турнир для замены", call := none }
  else
    { warning := none,
      call := some
        { find := replaceOld, repl := replaceNew, scope := replaceScope,
          tournament := if replaceScope = "tournament" then replaceTournament else none } }

/-- CybersBasePage `runMergeTournaments` (lines 222-244): an empty source
set or a blank target is rejected with a warning before any call;
otherwise `mergeTournaments` is called with the trimmed target. -/
def runMergeTournaments (mergeSources : List String) (mergeTarget : String) :
    GateOutcome MergeCall :=
  let target := String.mk (jsTrim mergeTarget.toList)
  if mergeSources.length = 0 then
    { warning := some "Выберите хотя бы один турнир", call := none }
  else if target = "" then
    { warning := some "Введите название целевого турнира", call := none }
  else
    { warning := none, call := some { sources := mergeSources, target := target } }

/-- CybersBasePage `handleImport` (lines 131-146): blank raw text returns
BEFORE any call, but silently — no validation message is shown (`if
(!importText.trim()) return;`). -/
def cybersBaseImportGate (importText : String) : GateOutcome String :=
  if jsTrim importText.toList = [] then
    { warning := none, call := none }
  else
    { warning := none, call := some importText }

/-- A persisted Cybers match record, as far as the merge contract needs
it.  Modelled from the spec: the backend behind `cyber.mergeTournaments`
is not part of the repository sources (only its caller
`runMergeTournaments` is), so the record follows §3 of the spec: a
store-assigned integer id, the `tournament` grouping key, participant and
date fields and a numeric measurement field. -/
structure CyberRecord where
  id : ℕ
  tournament : String
  team : String
  opponent : String
  date : String
  points : ℚ
  deriving DecidableEq, Repr

/-- Modelled from the spec: the Tournament Merge operation behind
`cyber.mergeTournaments` is not part of the repository sources.  Per §4.6
and §6 it rewrites the grouping key of every record whose tournament is in
the source set to the target value and returns the count of records
changed; records are never inserted or removed. -/
def mergeTournaments (sources : List String) (target : String)
    (store : List CyberRecord) : List CyberRecord × ℕ :=
  (store.map (fun r => if r.tournament ∈ sources then { r with tournament := target } else r),
   (store.filter (fun r => decide (r.tournament ∈ sources))).length)

/-- The ten decimal digit characters; used to state which cell strings
count as plain decimal values. -/
def decimalDigits : List Char := ['0', '1', '2', '3', '4', '5', '6', '7', '8', '9']

/-! ## Helper lemmas -/

theorem parseLinesAux_eq_filter_map (ls : List (List Char)) :
    parseLinesAux ls = (ls.filter keptLine).map (fun l => mkParsedRow (cellsOfLine l)) := by
  induction ls with
  | nil => rfl
  | cons l ls ih =>
    by_cases hb : jsTrim l = []
    · simp [parseLinesAux, hb, keptLine, List.filter_cons, ih]
    · by_cases hc : (cellsOfLine l).length < 3
      · have h3 : ¬ (3 ≤ (cellsOfLine l).length) := by omega
        simp [parseLinesAux, hb, hc, keptLine, List.filter_cons, ih, h3]
      · have h3 : 3 ≤ (cellsOfLine l).length := by omega
        simp [parseLinesAux, hb, hc, keptLine, List.filter_cons, ih, h3]

theorem importLoopLive_eq_append_filterMap (ls : List (List Char)) (store : List LiveMatch) :
    importLoopLive ls store = store ++ ls.filterMap (fun l => rowOfCellsLive (cellsOfLine l)) := by
  induction ls generalizing store with
  | nil => simp [importLoopLive]
  | cons l ls ih =>
    cases h : rowOfCellsLive (cellsOfLine l) with
    | none => simp [importLoopLive, h, ih, List.filterMap_cons]
    | some r => simp [importLoopLive, h, ih, List.filterMap_cons]

theorem withKeys_map_rowData (i : ℕ) (l : List CyberRow) :
    (withKeys i l).map rowData = l.map rowData := by
  induction l generalizing i with
  | nil => rfl
  | cons r rs ih => simp [withKeys, setRowKey, rowData, ih]

theorem withKeys_length (i : ℕ) (l : List CyberRow) :
    (withKeys i l).length = l.length := by
  induction l generalizing i with
  | nil => rfl
  | cons r rs ih => simp [withKeys, ih]

/-! ## Claim C1 -/

/-- Claim C1, counterexample: at the input `"a\tb"` (one non-blank line
with two cells) the parse accepts zero rows and reports zero errors, so
accepted rows plus reported errors does not equal the number of non-blank
lines — the dropped line vanishes silently, falsifying the claim as
stated. -/
theorem cyberPreview_not_line_conserving :
    ¬ ((cyberPreview "a\tb").parsed_rows.length + (cyberPreview "a\tb").errors.length
        = specNonBlankLineCount "a\tb") := by decide

/-- Claim C1, amended: for every raw text input, the number of accepted
rows plus the number of reported row errors equals the number of non-blank
lines WITH AT LEAST THREE non-empty cells; non-blank lines with fewer
cells are dropped silently and appear in neither count (the parse reports
no errors at all). -/
theorem cyberPreview_counts_kept_lines (rawText : String) :
    (cyberPreview rawText).parsed_rows.length + (cyberPreview rawText).errors.length
      = keptLineCount rawText := by
  simp [cyberPreview, parseLines, keptLineCount, parseLinesAux_eq_filter_map]

/-! ## Claim C2 -/

/-- Claim C2, counterexample: the input `"x\ty\nT\tA\tB"` has two
non-blank lines of which the first fails validation (two cells).  The
accepted sibling is persisted, but the operation returns an empty list of
failure reasons and reports unconditional success — falsifying "returns
the failure reasons". -/
theorem cybersLiveImport_returns_no_reasons :
    (cybersLiveImport "x\ty\nT\tA\tB" []).store
        = [{ tournament := "T", team1 := "A", team2 := "B", total := none, calc_temp := 0 }]
      ∧ (cybersLiveImport "x\ty\nT\tA\tB" []).errors = []
      ∧ (cybersLiveImport "x\ty\nT\tA\tB" []).successShown = true
      ∧ specNonBlankLineCount "x\ty\nT\tA\tB" = 2 := by decide

/-- Claim C2, amended: for every raw text input, the import commit
persists every accepted row, in input order, after the previously stored
rows (no rollback of successes), and the rejection of one row never
aborts the processing of subsequent rows; however the failure reasons of
rejected rows are NOT returned — the error list is always empty. -/
theorem cybersLiveImport_persists_accepted_rows (importText : String)
    (store : List LiveMatch) :
    (cybersLiveImport importText store).store = store ++ acceptedRowsLive importText
      ∧ (cybersLiveImport importText store).errors = [] := by
  by_cases h : jsTrim importText.data = [] <;>
    simp [cybersLiveImport, acceptedRowsLive, String.toList, h,
      importLoopLive_eq_append_filterMap]

/-! ## Claim C3 -/

/-- Claim C3, counterexample: in the paste `"p\tq\nT\tA\tB"` the first
line has only two cells.  The sibling valid row is accepted, but the short
row is NOT classified as rejected with reason "too few columns" — the
error list is empty, the line is silently dropped, falsifying the claim as
stated. -/
theorem short_line_not_reported :
    (cyberPreview "p\tq\nT\tA\tB").errors = []
      ∧ (cyberPreview "p\tq\nT\tA\tB").parsed_rows = [mkParsedRow ["T", "A", "B"]] := by
  decide

/-- Claim C3, amended: an input line whose cell count is below 3 is
silently skipped — it produces no row AND no reported reason — while the
remaining lines of the same paste are processed exactly as if the short
line were absent (so a sibling valid row is still accepted). -/
theorem short_line_skipped_silently (l : List Char) (ls : List (List Char))
    (h : (cellsOfLine l).length < 3) :
    parseLinesAux (l :: ls) = parseLinesAux ls := by
  by_cases hb : jsTrim l = [] <;> simp [parseLinesAux, hb, h]

/-- Witness for `short_line_skipped_silently` at the concrete two-cell
line `"p\tq"` followed by the valid line `"T\tA\tB"`. -/
theorem short_line_skipped_silently_witness :
    (cellsOfLine "p\tq".toList).length < 3
      ∧ parseLinesAux ["p\tq".toList, "T\tA\tB".toList]
          = parseLinesAux ["T\tA\tB".toList] :=
  ⟨by decide, short_line_skipped_silently "p\tq".toList ["T\tA\tB".toList] (by decide)⟩

/-! ## Claim C5 -/

/-- Claim C5, counterexample: the input `"ab"` is one non-blank line, but
the tokenizer emits no row for it (it has fewer than 3 cells), falsifying
"one row per non-blank input line". -/
theorem parseLines_drops_a_nonblank_line :
    ¬ ((parseLines "ab").length = specNonBlankLineCount "ab") := by decide

/-- Claim C5, amended: the parse emits one row per non-blank input line
that has AT LEAST THREE non-empty trimmed cells, each row built
positionally from exactly that line's ordered cell sequence (tab-split,
trimmed, empty cells removed); blank lines — and short lines — produce no
row and are not counted as errors. -/
theorem parseLines_eq_filter_map (rawText : String) :
    parseLines rawText
      = ((splitOnChar '\n' rawText.toList).filter keptLine).map
          (fun l => mkParsedRow (cellsOfLine l)) := by
  simpa [parseLines] using parseLinesAux_eq_filter_map (splitOnChar '\n' rawText.toList)

/-! ## Claim C8 -/

/-- Claim C8: the preview parse is a pure, deterministic function of its
input text — its parsed rows do not depend on the persisted store, and the
store passes through every run unchanged (the parse issues no persistence
call). -/
theorem cyberPreviewRun_pure (rawText : String) (s₁ s₂ : List CyberRow) :
    (cyberPreviewRun rawText s₁).1 = (cyberPreviewRun rawText s₂).1
      ∧ (cyberPreviewRun rawText s₁).2 = s₁ :=
  ⟨rfl, rfl⟩

/-! ## Claim C6 -/

/-- Claim C6, counterexample: committing whitespace-only raw text on the
Cybers base page is rejected before any persistence call, but SILENTLY —
`handleImport` just returns, no user-facing validation message is shown —
falsifying the claim as stated for the import case. -/
theorem blank_import_rejected_silently :
    (cybersBaseImportGate "   ").call = none
      ∧ (cybersBaseImportGate "   ").warning = none := by decide

/-- Claim C6, amended: every invalid request-level input — empty
(whitespace-only) find string for Scoped Replace, empty source set or
blank target for Tournament Merge, blank raw text for import — is
rejected before any call to the persistence layer; a user-facing
validation message is shown for the replace and merge cases, while a
blank text on commit is rejected silently with no message. -/
theorem bulk_request_gates :
    (∀ old new_ scope tourn, jsTrim old.data = [] →
        runReplace old new_ scope tourn
          = { warning := some "Введите, что заменить", call := none })
    ∧ (∀ sources target, sources = [] →
        runMergeTournaments sources target
          = { warning := some "Выберите хотя бы один турнир", call := none })
    ∧ (∀ sources target, sources ≠ [] → String.mk (jsTrim target.data) = "" →
        runMergeTournaments sources target
          = { warning := some "Введите название целевого турнира", call := none })
    ∧ (∀ text, jsTrim text.data = [] →
        cybersBaseImportGate text = { warning := none, call := none }) := by
  refine ⟨?_, ?_, ?_, ?_⟩
  · intro old new_ scope tourn h
    simp [runReplace, String.toList, h]
  · intro sources target h
    simp [runMergeTournaments, h]
  · intro sources target h1 h2
    have hl : ¬ (sources.length = 0) := by simpa [List.length_eq_zero] using h1
    simp [runMergeTournaments, String.toList, hl, h2]
  · intro text h
    simp [cybersBaseImportGate, String.toList, h]

/-- Witness for `bulk_request_gates` at concrete invalid inputs. -/
theorem bulk_request_gates_witness :
    (jsTrim " ".data = []
      ∧ runReplace " " "x" "all" none
          = { warning := some "Введите, что заменить", call := none })
    ∧ runMergeTournaments [] "T"
        = { warning := some "Выберите хотя бы один турнир", call := none }
    ∧ ((["A"] : List String) ≠ []
      ∧ String.mk (jsTrim "  ".data) = ""
      ∧ runMergeTournaments ["A"] "  "
          = { warning := some "Введите название целевого турнира", call := none })
    ∧ (jsTrim "\t\n".data = []
      ∧ cybersBaseImportGate "\t\n" = { warning := none, call := none }) :=
  ⟨⟨by decide, bulk_request_gates.1 " " "x" "all" none (by decide)⟩,
   bulk_request_gates.2.1 [] "T" rfl,
   ⟨by decide, by decide, bulk_request_gates.2.2.1 ["A"] "  " (by decide) (by decide)⟩,
   ⟨by decide, bulk_request_gates.2.2.2 "\t\n" (by decide)⟩⟩

/-! ## Claim C7 -/

/-- Claim C7: for every Tournament Merge call with a non-empty source set
and non-blank target, the number of persisted records is unchanged, and
record identities are preserved position by position (nothing is deleted
or duplicated) — the operation only rewrites the tournament grouping key. -/
theorem mergeTournaments_preserves_records (sources : List String) (target : String)
    (store : List CyberRecord) (h1 : sources ≠ []) (h2 : String.mk (jsTrim target.data) ≠ "") :
    (mergeTournaments sources target store).1.length = store.length
      ∧ (mergeTournaments sources target store).1.map (fun r => r.id)
          = store.map (fun r => r.id) := by
  constructor
  · simp [mergeTournaments]
  · simp only [mergeTournaments, List.map_map]
    refine List.map_congr_left ?_
    intro r _
    by_cases hm : r.tournament ∈ sources <;> simp [hm]

/-- Witness for `mergeTournaments_preserves_records` on a two-record
store, one record matching the source set. -/
theorem mergeTournaments_preserves_records_witness :
    ((["A"] : List String) ≠ []
      ∧ String.mk (jsTrim "B".data) ≠ ""
      ∧ (mergeTournaments ["A"] "B"
          [⟨1, "A", "t", "o", "d", 0⟩, ⟨2, "C", "u", "p", "d", 0⟩]).1.length
        = ([⟨1, "A", "t", "o", "d", 0⟩, ⟨2, "C", "u", "p", "d", 0⟩] : List CyberRecord).length) :=
  ⟨by decide, by decide,
   (mergeTournaments_preserves_records ["A"] "B"
      [⟨1, "A", "t", "o", "d", 0⟩, ⟨2, "C", "u", "p", "d", 0⟩]
      (by decide) (by decide)).1⟩

/-! ## Claim C10 -/

/-- Claim C10: a Lines row without a usable CalcTEMP (not a finite number
of magnitude above 0.000001) is never sent to the archive service:
`archiveRow` returns early with a warning, issuing no request, leaving the
row list untouched and the archive unreloaded; and the archive button is
disabled exactly under the same condition. -/
theorem archiveRow_guard (svc : ArchivePayload → Option ArchiveResult)
    (row : ViewRow) (rows : List CyberRow) :
    (hasCalcTemp row.calc_temp = false →
       archiveRow svc row rows
         = { request := none, rows := rows, archiveReloaded := false, guardWarning := true })
    ∧ (archiveDisabled row = true ↔ hasCalcTemp row.calc_temp = false)
    ∧ (∀ q, hasCalcTemp (JsVal.num q) = decide (mkRat 1 1000000 < ratAbs q))
    ∧ hasCalcTemp JsVal.nan = false := by
  refine ⟨fun h => by simp [archiveRow, h], ?_, fun q => rfl, rfl⟩
  cases h : hasCalcTemp row.calc_temp <;> simp [archiveDisabled, h]

/-- Witness for `archiveRow_guard` on a concrete row with `calc_temp = 0`
(zero is not above the threshold). -/
theorem archiveRow_guard_witness :
    hasCalcTemp (JsVal.num 0) = false
      ∧ archiveRow (fun _ => none)
          ⟨"k", none, "T", "A", "B", none, JsVal.num 0, none, none, none, none, 0, none⟩ []
        = { request := none, rows := [], archiveReloaded := false, guardWarning := true } :=
  ⟨by decide,
   (archiveRow_guard (fun _ => none)
      ⟨"k", none, "T", "A", "B", none, JsVal.num 0, none, none, none, none, 0, none⟩ []).1
     (by decide)⟩

/-! ## Claim C9 -/

/-- Claim C9: on the CyberLive page, importing pasted text that yields at
least one parsed row replaces the row list by the previous rows plus the
parsed rows — same multiset of row data (keys are synthetic identifiers,
regenerated positionally on every import), length equal to the sum of the
two counts — re-sorted ascending by the tournament comparison `le`
(modelling `localeCompare(...) <= 0`); text yielding zero parsed rows
leaves the rows unchanged and only shows a warning. -/
theorem importRows_spec (le : String → String → Bool) (inputText : String)
    (rows : List CyberRow)
    (htrans : ∀ a b c, le a b = true → le b c = true → le a c = true)
    (htotal : ∀ a b, le a b = true ∨ le b a = true) :
    (parseLines inputText = [] →
       importRows le inputText rows
         = { rows := rows, warning := true, inputText := inputText })
    ∧ (parseLines inputText ≠ [] →
        (importRows le inputText rows).warning = false
        ∧ (importRows le inputText rows).rows.length
            = rows.length + (parseLines inputText).length
        ∧ ((importRows le inputText rows).rows.map rowData).Perm
            ((rows ++ parseLines inputText).map rowData)
        ∧ List.Pairwise (fun a b => le a.tournament b.tournament = true)
            (importRows le inputText rows).rows) := by
  constructor
  · intro h
    simp [importRows, h]
  · intro h
    have hlen : ¬ ((parseLines inputText).length = 0) := by
      simpa [List.length_eq_zero] using h
    refine ⟨by simp [importRows, hlen], ?_, ?_, ?_⟩
    · have hp := List.perm_insertionSort
        (fun a b : CyberRow => le a.tournament b.tournament = true)
        (withKeys 0 (rows ++ parseLines inputText))
      simp only [importRows, hlen, if_false, if_neg hlen]
      calc (List.insertionSort _ (withKeys 0 (rows ++ parseLines inputText))).length
          = (withKeys 0 (rows ++ parseLines inputText)).length := hp.length_eq
        _ = rows.length + (parseLines inputText).length := by
            simp [withKeys_length]
    · have hp := List.perm_insertionSort
        (fun a b : CyberRow => le a.tournament b.tournament = true)
        (withKeys 0 (rows ++ parseLines inputText))
      simp only [importRows, hlen, if_neg hlen]
      simpa [withKeys_map_rowData] using hp.map rowData
    · letI : IsTotal CyberRow (fun a b => le a.tournament b.tournament = true) :=
        ⟨fun a b => htotal a.tournament b.tournament⟩
      letI : IsTrans CyberRow (fun a b => le a.tournament b.tournament = true) :=
        ⟨fun a b c hab hbc => htrans a.tournament b.tournament c.tournament hab hbc⟩
      simp only [importRows, hlen, if_neg hlen]
      exact List.sorted_insertionSort
        (fun a b => le a.tournament b.tournament = true)
        (withKeys 0 (rows ++ parseLines inputText))

/-- Witness for `importRows_spec` with the everywhere-true comparator (a
total, transitive relation) at a one-line paste into an empty table. -/
theorem importRows_spec_witness :
    parseLines "Z\tx\ty" ≠ []
      ∧ (importRows (fun _ _ => true) "Z\tx\ty" []).rows.length
          = ([] : List CyberRow).length + (parseLines "Z\tx\ty").length :=
  ⟨by decide,
   ((importRows_spec (fun _ _ => true) "Z\tx\ty" []
      (fun _ _ _ _ h => h) (fun _ _ => Or.inl rfl)).2 (by decide)).2.1⟩

/-! ## Claim C4: digit-string lemmas -/

theorem mem_decimalDigits_isDigit {c : Char} (h : c ∈ decimalDigits) :
    c.isDigit = true := by
  fin_cases h <;> decide

theorem mem_decimalDigits_not_ws {c : Char} (h : c ∈ decimalDigits) :
    isWS c = false := by
  fin_cases h <;> decide

theorem mem_decimalDigits_ne {c : Char} (h : c ∈ decimalDigits) :
    c ≠ ',' ∧ c ≠ '-' ∧ c ≠ '+' := by
  fin_cases h <;> decide

theorem dropWhile_eq_self_of_all_false {α : Type} {p : α → Bool} {l : List α}
    (h : ∀ c ∈ l, p c = false) : l.dropWhile p = l := by
  cases l with
  | nil => rfl
  | cons a t => simp [List.dropWhile_cons, h a (by simp)]

theorem jsTrim_eq_self {l : List Char} (h : ∀ c ∈ l, isWS c = false) :
    jsTrim l = l := by
  rw [jsTrim, dropWhile_eq_self_of_all_false h,
    dropWhile_eq_self_of_all_false (fun c hc => h c (List.mem_reverse.mp hc)),
    List.reverse_reverse]

theorem takeWhile_eq_self_of_all {α : Type} {p : α → Bool} {l : List α}
    (h : ∀ c ∈ l, p c = true) : l.takeWhile p = l := by
  induction l with
  | nil => rfl
  | cons a t ih =>
    simp [List.takeWhile_cons, h a (by simp), ih (fun c hc => h c (by simp [hc]))]

theorem dropWhile_eq_nil_of_all {α : Type} {p : α → Bool} {l : List α}
    (h : ∀ c ∈ l, p c = true) : l.dropWhile p = [] := by
  induction l with
  | nil => rfl
  | cons a t ih =>
    simp [List.dropWhile_cons, h a (by simp), ih (fun c hc => h c (by simp [hc]))]

theorem takeWhile_append_stop {α : Type} {p : α → Bool} {a : List α} {x : α}
    {r : List α} (ha : ∀ c ∈ a, p c = true) (hx : p x = false) :
    (a ++ x :: r).takeWhile p = a := by
  induction a with
  | nil => simp [List.takeWhile_cons, hx]
  | cons c t ih =>
    simp [List.takeWhile_cons, ha c (by simp), ih (fun d hd => ha d (by simp [hd]))]

theorem dropWhile_append_stop {α : Type} {p : α → Bool} {a : List α} {x : α}
    {r : List α} (ha : ∀ c ∈ a, p c = true) (hx : p x = false) :
    (a ++ x :: r).dropWhile p = x :: r := by
  induction a with
  | nil => simp [List.dropWhile_cons, hx]
  | cons c t ih =>
    simp [List.dropWhile_cons, ha c (by simp), ih (fun d hd => ha d (by simp [hd]))]

theorem replaceCommaOnceList_eq_self {l : List Char} (h : ∀ c ∈ l, c ≠ ',') :
    replaceCommaOnceList l = l := by
  induction l with
  | nil => rfl
  | cons c t ih =>
    simp [replaceCommaOnceList, h c (by simp), ih (fun d hd => h d (by simp [hd]))]

theorem replaceCommaOnceList_first {a b : List Char} (h : ∀ c ∈ a, c ≠ ',') :
    replaceCommaOnceList (a ++ ',' :: b) = a ++ '.' :: b := by
  induction a with
  | nil => simp [replaceCommaOnceList]
  | cons c t ih =>
    simp [replaceCommaOnceList, h c (by simp), ih (fun d hd => h d (by simp [hd]))]

theorem jsNumber_digits_dot (a b : List Char) (ha0 : a ≠ [])
    (ha : ∀ c ∈ a, c ∈ decimalDigits) (hb : ∀ c ∈ b, c ∈ decimalDigits) :
    jsNumber (String.mk (a ++ '.' :: b))
      = some (ratOfParts false (digitsToNat (a ++ b)) b.length 0) := by
  obtain ⟨d, a', rfl⟩ : ∃ d a', a = d :: a' := by
    cases a with
    | nil => exact absurd rfl ha0
    | cons d a' => exact ⟨d, a', rfl⟩
  have hd := ha d (by simp)
  have hno_ws : ∀ c ∈ d :: (a' ++ '.' :: b), isWS c = false := by
    intro c hc
    rcases List.mem_cons.mp hc with rfl | hc2
    · exact mem_decimalDigits_not_ws hd
    · rcases List.mem_append.mp hc2 with hca | hcb
      · exact mem_decimalDigits_not_ws (ha c (by simp [hca]))
      · rcases List.mem_cons.mp hcb with rfl | hcb2
        · decide
        · exact mem_decimalDigits_not_ws (hb c hcb2)
  have hsign : parseSign (d :: (a' ++ '.' :: b)) = (false, d :: (a' ++ '.' :: b)) := by
    have hne := mem_decimalDigits_ne hd
    simp [parseSign, hne.2.1, hne.2.2]
  have hta : (d :: (a' ++ '.' :: b)).takeWhile Char.isDigit = d :: a' := by
    have h0 := @takeWhile_append_stop Char Char.isDigit (d :: a') '.' b
      (fun c hc => mem_decimalDigits_isDigit (ha c hc)) (by decide)
    rwa [List.cons_append] at h0
  have hda : (d :: (a' ++ '.' :: b)).dropWhile Char.isDigit = '.' :: b := by
    have h0 := @dropWhile_append_stop Char Char.isDigit (d :: a') '.' b
      (fun c hc => mem_decimalDigits_isDigit (ha c hc)) (by decide)
    rwa [List.cons_append] at h0
  have hmant : parseMantissa (d :: (a' ++ '.' :: b))
      = some ((digitsToNat (d :: (a' ++ b)), b.length), []) := by
    simp only [parseMantissa, hta, hda]
    simp [takeWhile_eq_self_of_all (fun c hc => mem_decimalDigits_isDigit (hb c hc)),
      dropWhile_eq_nil_of_all (fun c hc => mem_decimalDigits_isDigit (hb c hc))]
  simp [jsNumber, String.toList, jsTrim_eq_self hno_ws, hsign, hmant, parseExponent]

theorem coerceTotal_digits (a b : List Char) (ha0 : a ≠ [])
    (ha : ∀ c ∈ a, c ∈ decimalDigits) (hb : ∀ c ∈ b, c ∈ decimalDigits) :
    coerceTotal (String.mk (a ++ '.' :: b)) = coerceTotal (String.mk (a ++ ',' :: b))
      ∧ (coerceTotal (String.mk (a ++ '.' :: b))).isSome = true := by
  have hnc : ∀ c ∈ a, c ≠ ',' := fun c hc => (mem_decimalDigits_ne (ha c hc)).1
  have h1 : replaceCommaOnce (String.mk (a ++ '.' :: b)) = String.mk (a ++ '.' :: b) := by
    have hall : ∀ c ∈ a ++ '.' :: b, c ≠ ',' := by
      intro c hc
      rcases List.mem_append.mp hc with h | h
      · exact hnc c h
      · rcases List.mem_cons.mp h with rfl | h
        · decide
        · exact (mem_decimalDigits_ne (hb c h)).1
    simp [replaceCommaOnce, String.toList, replaceCommaOnceList_eq_self hall]
  have h2 : replaceCommaOnce (String.mk (a ++ ',' :: b)) = String.mk (a ++ '.' :: b) := by
    simp [replaceCommaOnce, String.toList, replaceCommaOnceList_first hnc]
  constructor
  · simp [coerceTotal, h1, h2]
  · simp [coerceTotal, h1, jsNumber_digits_dot a b ha0 ha hb]

/-! ## Claim C4 -/

/-- Claim C4, counterexample: the total cell `"abc"` parses as a number
under neither separator, yet no field-level error is produced for the
row: the row is accepted with the total silently substituted by `null` —
falsifying "yields a field-level error for that row rather than ... a
silently substituted value". -/
theorem unparseable_total_silently_null :
    (cyberPreview "T\tA\tB\tabc").parsed_rows
        = [{ key := "", id := none, tournament := "T", team1 := "A", team2 := "B",
             total := none, calc_temp := JsVal.num 0 }]
      ∧ (cyberPreview "T\tA\tB\tabc").errors = [] := by decide

/-- Claim C4, amended: decimal coercion accepts both `.` and `,` as the
fractional separator and yields the same numeric value for either; but a
cell value that parses as a number under neither separator does NOT yield
a field-level error — the row is still accepted, with its total silently
set to `null`. -/
theorem decimal_coercion_locale_tolerant :
    (∀ a b : List Char, a ≠ [] →
        (∀ c ∈ a, c ∈ decimalDigits) → (∀ c ∈ b, c ∈ decimalDigits) →
        coerceTotal (String.mk (a ++ '.' :: b)) = coerceTotal (String.mk (a ++ ',' :: b))
          ∧ (coerceTotal (String.mk (a ++ '.' :: b))).isSome = true)
    ∧ (∀ t u v c, coerceTotal c = none →
        mkParsedRow [t, u, v, c]
          = { key := "", id := none, tournament := t, team1 := u, team2 := v,
              total := none, calc_temp := JsVal.num 0 }) := by
  constructor
  · intro a b ha0 ha hb
    exact coerceTotal_digits a b ha0 ha hb
  · intro t u v c h
    simp [mkParsedRow, h]

/-- Witness for `decimal_coercion_locale_tolerant`: `"3.5"` and `"3,5"`
coerce to the same (defined) value, and the unparseable cell `"abc"`
leaves an accepted row with a `null` total. -/
theorem decimal_coercion_locale_tolerant_witness :
    ((['3'] : List Char) ≠ []
      ∧ coerceTotal (String.mk (['3'] ++ '.' :: ['5']))
          = coerceTotal (String.mk (['3'] ++ ',' :: ['5']))
      ∧ (coerceTotal (String.mk (['3'] ++ '.' :: ['5']))).isSome = true)
    ∧ (coerceTotal "abc" = none
      ∧ mkParsedRow ["T", "A", "B", "abc"]
          = { key := "", id := none, tournament := "T", team1 := "A", team2 := "B",
              total := none, calc_temp := JsVal.num 0 }) :=
  ⟨⟨by decide,
    (decimal_coercion_locale_tolerant.1 ['3'] ['5'] (by decide) (by decide) (by decide)).1,
    (decimal_coercion_locale_tolerant.1 ['3'] ['5'] (by decide) (by decide) (by decide)).2⟩,
   ⟨by decide, decimal_coercion_locale_tolerant.2 "T" "A" "B" "abc" (by decide)⟩⟩
